import Mathlib

/-!
Verification model of the LibSQL checkpoint saver (`src/index.ts`): a shallow
embedding of the checkpoint persistence engine.  The two backing SQL tables are
modelled as in-memory lists of row records; SQL statements become pure Lean
functions on that state.  The external collaborators (the value serializer, the
channel-version generator, and SQLite's JSON path extraction used by metadata
filters) are passed in as explicit function parameters, mirroring their role as
opaque dependencies of the engine.

Modelling conventions, fixed once here:
- SQLite TEXT comparison (BINARY collation, used by `ORDER BY checkpoint_id`
  and `checkpoint_id < ?`) is modelled by codepoint-wise lexicographic
  comparison `strLt` on `String.data`.
- A SQL query returning rows from the `writes` table is modelled as returning
  the matching rows sorted by the table's primary key
  (thread_id, checkpoint_ns, checkpoint_id, task_id, idx): every such query in
  the source constrains the leading primary-key columns by equality, so the
  engine scans the primary-key index in key order.
- `INSERT OR REPLACE` removes any row with the same primary key and appends
  the fresh row.
- Blob columns are carried as `String` (the source normalizes `ArrayBuffer`
  blobs to UTF-8 strings via `blobToString` before use, so the model stores the
  normalized form directly); the `type` and `value` columns are modelled
  non-null, as every row written by this engine stores both, making the JS
  null-coalescing defaults (`?? "json"`, `?? ""`) no-ops.
- JavaScript string truthiness (`if (thread_id)`, `if (checkpoint_id)`) is
  modelled by `truthy`: an absent field and the empty string are both falsy.
-/

namespace LibsqlCkpt

/-! ### Byte-wise string order (SQLite BINARY collation model) -/

/-- Codepoint comparison of characters. -/
def charLtB (a b : Char) : Bool := decide (a.toNat < b.toNat)

/-- Lexicographic strict order on character lists. -/
def strLtB : List Char → List Char → Bool
  | [], [] => false
  | [], _ :: _ => true
  | _ :: _, [] => false
  | a :: as, b :: bs =>
    if charLtB a b then true
    else if charLtB b a then false
    else strLtB as bs

/-- Strict lexicographic order on strings (model of SQLite TEXT `<`). -/
def strLt (a b : String) : Bool := strLtB a.data b.data

/-- Non-strict lexicographic order on strings. -/
def strLe (a b : String) : Bool := !(strLt b a)

theorem charToNat_inj {a b : Char} (h : a.toNat = b.toNat) : a = b := by
  rcases a with ⟨⟨a, ha⟩, va⟩; rcases b with ⟨⟨b, hb⟩, vb⟩
  simp only [Char.toNat, UInt32.toNat] at h
  subst h; rfl

theorem charLtB_trichotomy (a b : Char) :
    charLtB a b = true ∨ a = b ∨ charLtB b a = true := by
  unfold charLtB
  rcases Nat.lt_trichotomy a.toNat b.toNat with h | h | h
  · exact Or.inl (by simpa using h)
  · exact Or.inr (Or.inl (charToNat_inj h))
  · exact Or.inr (Or.inr (by simpa using h))

theorem charLtB_asymm {a b : Char} (h : charLtB a b = true) :
    charLtB b a = false := by
  simp only [charLtB, decide_eq_true_eq] at h
  simpa [charLtB] using Nat.le_of_lt h

theorem charLtB_trans {a b c : Char} (h₁ : charLtB a b = true)
    (h₂ : charLtB b c = true) : charLtB a c = true := by
  simp only [charLtB, decide_eq_true_eq] at h₁ h₂ ⊢
  exact Nat.lt_trans h₁ h₂

theorem charLtB_irrefl (a : Char) : charLtB a a = false := by
  simp [charLtB]

theorem strLtB_trichotomy :
    ∀ x y : List Char, strLtB x y = true ∨ x = y ∨ strLtB y x = true
  | [], [] => Or.inr (Or.inl rfl)
  | [], _ :: _ => Or.inl rfl
  | _ :: _, [] => Or.inr (Or.inr rfl)
  | a :: as, b :: bs => by
    rcases charLtB_trichotomy a b with h | h | h
    · exact Or.inl (by simp [strLtB, h])
    · subst h
      rcases strLtB_trichotomy as bs with h' | h' | h'
      · exact Or.inl (by simp [strLtB, charLtB_irrefl, h'])
      · exact Or.inr (Or.inl (by rw [h']))
      · exact Or.inr (Or.inr (by simp [strLtB, charLtB_irrefl, h']))
    · exact Or.inr (Or.inr (by simp [strLtB, h, charLtB_asymm h]))

theorem strLtB_asymm :
    ∀ {x y : List Char}, strLtB x y = true → strLtB y x = false
  | [], [], h => by simp [strLtB] at h
  | [], _ :: _, _ => by simp [strLtB]
  | _ :: _, [], h => by simp [strLtB] at h
  | a :: as, b :: bs, h => by
    by_cases hab : charLtB a b = true
    · simp [strLtB, charLtB_asymm hab, hab]
    · by_cases hba : charLtB b a = true
      · simp [strLtB, hab, hba] at h
      · have h' : strLtB as bs = true := by
          simpa [strLtB, hab, hba] using h
        simp [strLtB, hab, hba, strLtB_asymm h']

theorem strLtB_trans :
    ∀ {x y z : List Char}, strLtB x y = true → strLtB y z = true →
      strLtB x z = true
  | [], [], _, h₁, _ => by simp [strLtB] at h₁
  | [], _ :: _, [], _, h₂ => by simp [strLtB] at h₂
  | [], _ :: _, _ :: _, _, _ => by simp [strLtB]
  | _ :: _, [], _, h₁, _ => by simp [strLtB] at h₁
  | _ :: _, _ :: _, [], _, h₂ => by simp [strLtB] at h₂
  | a :: as, b :: bs, c :: cs, h₁, h₂ => by
    by_cases hab : charLtB a b = true
    · by_cases hbc : charLtB b c = true
      · simp [strLtB, charLtB_trans hab hbc]
      · by_cases hcb : charLtB c b = true
        · simp [strLtB, hbc, hcb] at h₂
        · rcases charLtB_trichotomy b c with h | h | h
          · exact absurd h hbc
          · subst h; simp [strLtB, hab]
          · exact absurd h hcb
    · by_cases hba : charLtB b a = true
      · simp [strLtB, hab, hba] at h₁
      · rcases charLtB_trichotomy a b with h | h | h
        · exact absurd h hab
        · subst h
          have h₁' : strLtB as bs = true := by simpa [strLtB, hab] using h₁
          by_cases hac : charLtB a c = true
          · simp [strLtB, hac]
          · by_cases hca : charLtB c a = true
            · simp [strLtB, hac, hca] at h₂
            · have h₂' : strLtB bs cs = true := by
                simpa [strLtB, hac, hca] using h₂
              simp [strLtB, hac, hca, strLtB_trans h₁' h₂']
        · exact absurd h hba

theorem stringDataInj : ∀ {s t : String}, s.data = t.data → s = t
  | ⟨_⟩, ⟨_⟩, h => by cases h; rfl

theorem strLt_trichotomy (a b : String) :
    strLt a b = true ∨ a = b ∨ strLt b a = true := by
  rcases strLtB_trichotomy a.data b.data with h | h | h
  · exact Or.inl h
  · exact Or.inr (Or.inl (stringDataInj h))
  · exact Or.inr (Or.inr h)

theorem strLt_asymm {a b : String} (h : strLt a b = true) :
    strLt b a = false := strLtB_asymm h

theorem strLt_trans {a b c : String} (h₁ : strLt a b = true)
    (h₂ : strLt b c = true) : strLt a c = true := strLtB_trans h₁ h₂

theorem strLt_irrefl (a : String) : strLt a a = false := by
  rcases strLt_trichotomy a a with h | h | h
  · exact absurd (strLt_asymm h) (by simp [h])
  · cases hlt : strLt a a
    · rfl
    · exact absurd (strLt_asymm hlt) (by simp [hlt])
  · exact absurd (strLt_asymm h) (by simp [h])

theorem strLe_total (a b : String) : strLe a b = true ∨ strLe b a = true := by
  unfold strLe
  cases hab : strLt a b
  · right; simp [hab]
  · left; simp [strLt_asymm hab]

theorem strLe_trans {a b c : String} (h₁ : strLe a b = true)
    (h₂ : strLe b c = true) : strLe a c = true := by
  unfold strLe at h₁ h₂ ⊢
  cases hca : strLt c a
  · simp
  · exfalso
    have hba : strLt b a = false := by simpa using h₁
    have hcb : strLt c b = false := by simpa using h₂
    rcases strLt_trichotomy b c with h | h | h
    · exact absurd (strLt_trans h hca) (by simp [hba])
    · subst h; exact absurd hca (by simp [hba])
    · exact absurd h (by simp [hcb])

theorem strLt_of_strLe_of_ne {a b : String} (h : strLe a b = true)
    (hne : a ≠ b) : strLt a b = true := by
  unfold strLe at h
  rcases strLt_trichotomy a b with h' | h' | h'
  · exact h'
  · exact absurd h' hne
  · simp [h'] at h

theorem strLe_refl (a : String) : strLe a a = true := by
  simp [strLe, strLt_irrefl]

/-! ### Domain data model

Mirrors the `Checkpoint`, `CheckpointMetadata`, `RunnableConfig` and
`CheckpointTuple` shapes consumed by `src/index.ts`.  Opaque channel/write
values are drawn from `Val`; a channel's stored value is either a single value
or an array of values (`ChanVal.arr` is what the legacy migration assigns to
the `TASKS` channel).  Channel version tokens are modelled as naturals, the
model's monotonically comparable version type. -/

/-- Reserved channel name carrying pending sends
(`TASKS` from `@langchain/langgraph-checkpoint`). -/
def TASKS : String := "__pregel_tasks"

/-- Opaque domain values handled by the external serializer. -/
inductive Val where
  | str : String → Val
  | num : Int → Val
deriving DecidableEq, Repr

/-- A channel's in-memory value: a single opaque value or an array of them. -/
inductive ChanVal where
  | val : Val → ChanVal
  | arr : List Val → ChanVal
deriving DecidableEq, Repr

/-- In-memory checkpoint object (shape of `Checkpoint` from
`@langchain/langgraph-checkpoint`); maps are association lists. -/
structure Checkpoint where
  v : Int
  id : String
  ts : String
  channel_values : List (String × ChanVal)
  channel_versions : List (String × Nat)
  versions_seen : List (String × List (String × Nat))
deriving DecidableEq, Repr

/-- Checkpoint metadata with the three recognized keys. -/
structure CheckpointMetadata where
  source : String
  step : Int
  parents : List (String × String)
deriving DecidableEq, Repr

/-- The `configurable` record of a `RunnableConfig`; each field may be absent. -/
structure Configurable where
  thread_id : Option String := none
  checkpoint_ns : Option String := none
  checkpoint_id : Option String := none
deriving DecidableEq, Repr

/-- A `RunnableConfig` as used by the saver: only `configurable` matters. -/
structure RunnableConfig where
  configurable : Option Configurable := none
deriving DecidableEq, Repr

/-- The tuple returned by `getTuple` / yielded by `list`. -/
structure CheckpointTuple where
  config : RunnableConfig
  checkpoint : Checkpoint
  metadata : CheckpointMetadata
  parentConfig : Option RunnableConfig
  pendingWrites : List (String × String × Val)
deriving DecidableEq, Repr

/-- The external serializer (`SerializerProtocol`): a `dumpsTyped`/`loadsTyped`
pair per payload shape, returning/consuming a (type tag, bytes) pair. -/
structure Serde where
  dumpsCkpt : Checkpoint → String × String
  loadsCkpt : String → String → Checkpoint
  dumpsMeta : CheckpointMetadata → String × String
  loadsMeta : String → String → CheckpointMetadata
  dumpsVal : Val → String × String
  loadsVal : String → String → Val

/-- First-match association-list lookup (JS object property read). -/
def getKey {α : Type} (m : List (String × α)) (k : String) : Option α :=
  (m.find? (fun kv => kv.1 == k)).map (·.2)

/-- Association-list update (JS object property assignment): replaces the
first binding of `k` in place, or appends a new binding. -/
def setKey {α : Type} (m : List (String × α)) (k : String) (v : α) :
    List (String × α) :=
  match m with
  | [] => [(k, v)]
  | kv :: rest =>
    if kv.1 == k then (k, v) :: rest else kv :: setKey rest k v

/-- JavaScript truthiness of an optional string: absent and `""` are falsy. -/
def truthy (o : Option String) : Bool := o.getD "" != ""

/-- `copyCheckpoint` from `@langchain/langgraph-checkpoint`: a structural copy,
identity in a pure model. -/
def copyCheckpoint (c : Checkpoint) : Checkpoint := c

/-- `maxChannelVersion` from `@langchain/langgraph-checkpoint`, on the model's
`Nat` version tokens: maximum of the given versions. -/
def maxChannelVersion (vs : List Nat) : Nat := vs.foldl Nat.max 0

/-! ### Backing store rows and tables -/

/-- A row of the `checkpoints` table. -/
structure CkptRow where
  thread_id : String
  checkpoint_ns : String
  checkpoint_id : String
  parent_checkpoint_id : Option String
  type : String
  checkpoint : String
  metadata : String
deriving DecidableEq, Repr

/-- A row of the `writes` table. -/
structure WriteRow where
  thread_id : String
  checkpoint_ns : String
  checkpoint_id : String
  task_id : String
  idx : Nat
  channel : String
  type : String
  value : String
deriving DecidableEq, Repr

/-- The backing store: both tables. -/
structure DB where
  checkpoints : List CkptRow
  writes : List WriteRow
deriving DecidableEq, Repr

/-- Primary-key equality on `checkpoints` rows. -/
def ckptKeyEq (a b : CkptRow) : Bool :=
  a.thread_id == b.thread_id && a.checkpoint_ns == b.checkpoint_ns &&
    a.checkpoint_id == b.checkpoint_id

/-- Primary-key equality on `writes` rows. -/
def writeKeyEq (a b : WriteRow) : Bool :=
  a.thread_id == b.thread_id && a.checkpoint_ns == b.checkpoint_ns &&
    a.checkpoint_id == b.checkpoint_id && a.task_id == b.task_id &&
    a.idx == b.idx

/-- `INSERT OR REPLACE INTO checkpoints`: drop any row with the same primary
key, append the new row. -/
def DB.insertCheckpoint (db : DB) (row : CkptRow) : DB :=
  { db with
    checkpoints := db.checkpoints.filter (fun r => !(ckptKeyEq r row)) ++ [row] }

/-- `INSERT OR REPLACE INTO writes`: drop any row with the same primary key,
append the new row. -/
def DB.insertWrite (db : DB) (row : WriteRow) : DB :=
  { db with
    writes := db.writes.filter (fun r => !(writeKeyEq r row)) ++ [row] }

/-! ### Query-result ordering -/

/-- Row order produced by `ORDER BY checkpoint_id DESC`. -/
def ckptRowGe (a b : CkptRow) : Prop :=
  strLe b.checkpoint_id a.checkpoint_id = true

instance : DecidableRel ckptRowGe := fun a b =>
  inferInstanceAs (Decidable (_ = true))

instance : IsTotal CkptRow ckptRowGe :=
  ⟨fun a b => (strLe_total b.checkpoint_id a.checkpoint_id).imp id id⟩

instance : IsTrans CkptRow ckptRowGe :=
  ⟨fun _ _ _ h₁ h₂ => strLe_trans h₂ h₁⟩

/-- `SELECT ... ORDER BY checkpoint_id DESC` over a set of matched rows. -/
def sortRowsDesc (l : List CkptRow) : List CkptRow :=
  l.insertionSort ckptRowGe

/-- Lexicographic non-strict order built from a strict `Bool` comparison on
the first component and a non-strict order on the second. -/
def lexLeB {α β : Type} (lt : α → α → Bool) (r : β → β → Prop) (x y : α × β) :
    Prop :=
  lt x.1 y.1 = true ∨ (x.1 = y.1 ∧ r x.2 y.2)

instance {α β : Type} (lt : α → α → Bool) (r : β → β → Prop) [DecidableEq α]
    [DecidableRel r] : DecidableRel (lexLeB lt r) := fun x y =>
  inferInstanceAs (Decidable (_ ∨ _))

theorem lexLeB_total {α β : Type} (lt : α → α → Bool) (r : β → β → Prop)
    (htri : ∀ a b : α, lt a b = true ∨ a = b ∨ lt b a = true)
    (hr : ∀ x y : β, r x y ∨ r y x) (x y : α × β) :
    lexLeB lt r x y ∨ lexLeB lt r y x := by
  rcases htri x.1 y.1 with h | h | h
  · exact Or.inl (Or.inl h)
  · rcases hr x.2 y.2 with h' | h'
    · exact Or.inl (Or.inr ⟨h, h'⟩)
    · exact Or.inr (Or.inr ⟨h.symm, h'⟩)
  · exact Or.inr (Or.inl h)

theorem lexLeB_trans {α β : Type} (lt : α → α → Bool) (r : β → β → Prop)
    (hltt : ∀ {a b c : α}, lt a b = true → lt b c = true → lt a c = true)
    (hr : ∀ {x y z : β}, r x y → r y z → r x z) {x y z : α × β}
    (h₁ : lexLeB lt r x y) (h₂ : lexLeB lt r y z) : lexLeB lt r x z := by
  rcases h₁ with h₁ | ⟨he₁, hr₁⟩
  · rcases h₂ with h₂ | ⟨he₂, _⟩
    · exact Or.inl (hltt h₁ h₂)
    · exact Or.inl (he₂ ▸ h₁)
  · rcases h₂ with h₂ | ⟨he₂, hr₂⟩
    · exact Or.inl (he₁ ▸ h₂)
    · exact Or.inr ⟨he₁.trans he₂, hr hr₁ hr₂⟩

/-- Primary-key projection of a `writes` row. -/
def writeKeyOf (w : WriteRow) :
    String × String × String × String × Nat :=
  (w.thread_id, w.checkpoint_ns, w.checkpoint_id, w.task_id, w.idx)

/-- Primary-key order on `writes` rows: index-scan order of every `writes`
query issued by the engine. -/
def writeRowLe (a b : WriteRow) : Prop :=
  lexLeB strLt (lexLeB strLt (lexLeB strLt (lexLeB strLt (· ≤ ·))))
    (writeKeyOf a) (writeKeyOf b)

instance : DecidableRel writeRowLe := fun a b =>
  inferInstanceAs (Decidable (lexLeB _ _ _ _))

theorem wk2_total (x y : String × Nat) :
    lexLeB strLt (· ≤ ·) x y ∨ lexLeB strLt (· ≤ ·) y x :=
  lexLeB_total strLt (· ≤ ·) strLt_trichotomy Nat.le_total x y

theorem wk2_trans {x y z : String × Nat} (h₁ : lexLeB strLt (· ≤ ·) x y)
    (h₂ : lexLeB strLt (· ≤ ·) y z) : lexLeB strLt (· ≤ ·) x z :=
  lexLeB_trans strLt (· ≤ ·) strLt_trans
    (fun hx hy => Nat.le_trans hx hy) h₁ h₂

theorem wk3_total (x y : String × String × Nat) :
    lexLeB strLt (lexLeB strLt (· ≤ ·)) x y ∨
      lexLeB strLt (lexLeB strLt (· ≤ ·)) y x :=
  lexLeB_total strLt (lexLeB strLt (· ≤ ·)) strLt_trichotomy wk2_total x y

theorem wk3_trans {x y z : String × String × Nat}
    (h₁ : lexLeB strLt (lexLeB strLt (· ≤ ·)) x y)
    (h₂ : lexLeB strLt (lexLeB strLt (· ≤ ·)) y z) :
    lexLeB strLt (lexLeB strLt (· ≤ ·)) x z :=
  lexLeB_trans strLt (lexLeB strLt (· ≤ ·)) strLt_trans
    (fun hx hy => wk2_trans hx hy) h₁ h₂

theorem wk4_total (x y : String × String × String × Nat) :
    lexLeB strLt (lexLeB strLt (lexLeB strLt (· ≤ ·))) x y ∨
      lexLeB strLt (lexLeB strLt (lexLeB strLt (· ≤ ·))) y x :=
  lexLeB_total strLt (lexLeB strLt (lexLeB strLt (· ≤ ·))) strLt_trichotomy
    wk3_total x y

theorem wk4_trans {x y z : String × String × String × Nat}
    (h₁ : lexLeB strLt (lexLeB strLt (lexLeB strLt (· ≤ ·))) x y)
    (h₂ : lexLeB strLt (lexLeB strLt (lexLeB strLt (· ≤ ·))) y z) :
    lexLeB strLt (lexLeB strLt (lexLeB strLt (· ≤ ·))) x z :=
  lexLeB_trans strLt (lexLeB strLt (lexLeB strLt (· ≤ ·))) strLt_trans
    (fun hx hy => wk3_trans hx hy) h₁ h₂

instance : IsTotal WriteRow writeRowLe :=
  ⟨fun a b =>
    lexLeB_total strLt (lexLeB strLt (lexLeB strLt (lexLeB strLt (· ≤ ·))))
      strLt_trichotomy wk4_total (writeKeyOf a) (writeKeyOf b)⟩

instance : IsTrans WriteRow writeRowLe :=
  ⟨fun _ _ _ h₁ h₂ =>
    lexLeB_trans strLt (lexLeB strLt (lexLeB strLt (lexLeB strLt (· ≤ ·))))
      strLt_trans (fun hx hy => wk4_trans hx hy) h₁ h₂⟩

/-- Matched `writes` rows in primary-key index-scan order. -/
def sortWriteRows (l : List WriteRow) : List WriteRow :=
  l.insertionSort writeRowLe

/-! ### The engine operations -/

/-- The correlated `pending_writes` subquery of `getTuple`/`list`: all `writes`
rows owned by the checkpoint row, in index-scan order. -/
def pendingWritesRows (db : DB) (row : CkptRow) : List WriteRow :=
  sortWriteRows (db.writes.filter (fun pw =>
    pw.thread_id == row.thread_id && pw.checkpoint_ns == row.checkpoint_ns &&
      pw.checkpoint_id == row.checkpoint_id))

/-- Decoding of one pending-write row into the
`[task_id, channel, loadsTyped(type, value)]` triple. -/
def decodeWrite (s : Serde) (w : WriteRow) : String × String × Val :=
  (w.task_id, w.channel, s.loadsVal w.type w.value)

/-- `migratePendingSends`: reconstructs the `TASKS` channel of a legacy
in-memory checkpoint from the parent checkpoint's `TASKS` write rows.  The SQL
filters on `thread_id`, `checkpoint_id` and `channel` only — `checkpoint_ns` is
not constrained.  The query is an aggregate with no `GROUP BY`, so it returns
exactly one result row even when no write row matches; the
`result.rows.length === 0` guard therefore never fires. -/
def migratePendingSends (s : Serde) (gen : Option Nat → Nat) (db : DB)
    (checkpoint : Checkpoint) (threadId parentCheckpointId : String) :
    Checkpoint :=
  let sends := sortWriteRows (db.writes.filter (fun ps =>
    ps.thread_id == threadId && ps.checkpoint_id == parentCheckpointId &&
      ps.channel == TASKS))
  let resultRows : List (List WriteRow) := [sends]
  if resultRows.isEmpty then checkpoint
  else
    let cv := setKey checkpoint.channel_values TASKS
      (ChanVal.arr (sends.map (fun w => s.loadsVal w.type w.value)))
    let ver : Nat :=
      if checkpoint.channel_versions.length > 0 then
        maxChannelVersion (checkpoint.channel_versions.map (·.2))
      else gen none
    { checkpoint with
        channel_values := cv
        channel_versions := setKey checkpoint.channel_versions TASKS ver }

/-- Decoding of one fetched checkpoint row into the returned tuple: pending
writes are decoded from the correlated subquery, the checkpoint blob is
decoded and (for a legacy version with a recorded parent) run through the
migration, and the parent config is exposed when a parent id is stored.
`checkpoint_ns` is the namespace the configs are built with. -/
def mkTuple (s : Serde) (gen : Option Nat → Nat) (db : DB)
    (finalConfig : RunnableConfig) (checkpoint_ns : String) (row : CkptRow) :
    CheckpointTuple :=
  let pendingWrites := (pendingWritesRows db row).map (decodeWrite s)
  let checkpoint0 := s.loadsCkpt row.type row.checkpoint
  let checkpoint :=
    if decide (checkpoint0.v < 4) && row.parent_checkpoint_id.isSome then
      migratePendingSends s gen db checkpoint0 row.thread_id
        (row.parent_checkpoint_id.getD "")
    else checkpoint0
  { config := finalConfig,
    checkpoint := checkpoint,
    metadata := s.loadsMeta row.type row.metadata,
    parentConfig := row.parent_checkpoint_id.map (fun p =>
      (⟨some { thread_id := some row.thread_id,
               checkpoint_ns := some checkpoint_ns,
               checkpoint_id := some p }⟩ : RunnableConfig)),
    pendingWrites := pendingWrites }

/-- `getTuple`: fetch one checkpoint (exact id if a truthy `checkpoint_id` is
configured, else the partition's latest), decode it, join its pending writes,
and run the legacy migration when the decoded version is below 4 and a parent
id is recorded.  An absent `thread_id` cannot be bound as a SQL argument (the
driver rejects `undefined`), which surfaces as an error. -/
def getTuple (s : Serde) (gen : Option Nat → Nat) (db : DB)
    (config : RunnableConfig) : Except String (Option CheckpointTuple) :=
  let conf := config.configurable.getD {}
  let checkpoint_ns := conf.checkpoint_ns.getD ""
  let checkpoint_id := conf.checkpoint_id
  match conf.thread_id with
  | none => .error "unsupported type of value: undefined"
  | some tid =>
    let row? :=
      if truthy checkpoint_id then
        (db.checkpoints.filter (fun r =>
          r.thread_id == tid && r.checkpoint_ns == checkpoint_ns &&
            r.checkpoint_id == checkpoint_id.getD "")).head?
      else
        (sortRowsDesc (db.checkpoints.filter (fun r =>
          r.thread_id == tid && r.checkpoint_ns == checkpoint_ns))).head?
    match row? with
    | none => .ok none
    | some row =>
      let finalConfig : RunnableConfig :=
        if truthy checkpoint_id then config
        else ⟨some { thread_id := some row.thread_id,
                     checkpoint_ns := some checkpoint_ns,
                     checkpoint_id := some row.checkpoint_id }⟩
      if (finalConfig.configurable.bind (·.thread_id)).isNone ||
          (finalConfig.configurable.bind (·.checkpoint_id)).isNone then
        .error "Missing thread_id or checkpoint_id"
      else
        .ok (some (mkTuple s gen db finalConfig checkpoint_ns row))

/-- `put`: upsert one checkpoint row.  The parent id column is taken from the
incoming config's `checkpoint_id`; the checkpoint and metadata are serialized
independently and must yield the same type tag. -/
def put (s : Serde) (db : DB) (config : RunnableConfig)
    (checkpoint : Checkpoint) (metadata : CheckpointMetadata) :
    Except String (RunnableConfig × DB) :=
  match config.configurable with
  | none => .error "Empty configuration supplied."
  | some conf =>
    let thread_id := conf.thread_id
    let checkpoint_ns := conf.checkpoint_ns.getD ""
    let parent_checkpoint_id := conf.checkpoint_id
    if !truthy thread_id then
      .error "Missing thread_id field in passed config.configurable."
    else
      let preparedCheckpoint := copyCheckpoint checkpoint
      let d1 := s.dumpsCkpt preparedCheckpoint
      let d2 := s.dumpsMeta metadata
      if d1.1 != d2.1 then
        .error "Failed to serialized checkpoint and metadata to the same type."
      else
        let row : CkptRow := {
          thread_id := thread_id.getD "",
          checkpoint_ns := checkpoint_ns,
          checkpoint_id := checkpoint.id,
          parent_checkpoint_id := parent_checkpoint_id,
          type := d1.1,
          checkpoint := d1.2,
          metadata := d2.2 }
        .ok (⟨some { thread_id := thread_id,
                     checkpoint_ns := some checkpoint_ns,
                     checkpoint_id := some checkpoint.id }⟩,
          db.insertCheckpoint row)

/-- `putWrites`: persist each write at its position index under
(thread, ns, checkpoint, task), as one atomic upsert batch. -/
def putWrites (s : Serde) (db : DB) (config : RunnableConfig)
    (writes : List (String × Val)) (taskId : String) : Except String DB :=
  match config.configurable with
  | none => .error "Empty configuration supplied."
  | some conf =>
    if !truthy conf.thread_id then
      .error "Missing thread_id field in config.configurable."
    else if !truthy conf.checkpoint_id then
      .error "Missing checkpoint_id field in config.configurable."
    else
      let rows := writes.enum.map (fun iw =>
        let d := s.dumpsVal iw.2.2
        ({ thread_id := conf.thread_id.getD "",
           checkpoint_ns := conf.checkpoint_ns.getD "",
           checkpoint_id := conf.checkpoint_id.getD "",
           task_id := taskId,
           idx := iw.1,
           channel := iw.2.1,
           type := d.1,
           value := d.2 } : WriteRow))
      .ok (rows.foldl DB.insertWrite db)

/-! ### `list` -/

/-- `JSON.stringify` of a filter value, the canonical text the metadata filter
compares against. -/
def jsonStringify : Val → String
  | .str s => "\"" ++ s ++ "\""
  | .num n => toString n

/-- The recognized checkpoint-metadata keys. -/
def validCheckpointMetadataKeys : List String := ["source", "step", "parents"]

/-- One WHERE predicate of `list`'s query; each carries one `?` placeholder. -/
inductive WherePred where
  | threadEq
  | nsEq
  | idLt
  | metaEq (key : String)
deriving DecidableEq, Repr

/-- Evaluate one predicate against its bound argument on a row; `jx meta key`
models SQLite's json extraction of the key from the metadata blob. -/
def predHolds (jx : String → String → String) (p : WherePred) (arg : String)
    (r : CkptRow) : Bool :=
  match p with
  | .threadEq => r.thread_id == arg
  | .nsEq => r.checkpoint_ns == arg
  | .idLt => strLt r.checkpoint_id arg
  | .metaEq key => jx r.metadata key == arg

/-- Options accepted by `list`; a filter value may be absent (JS `undefined`). -/
structure CheckpointListOptions where
  limit : Option Nat := none
  before : Option RunnableConfig := none
  filter : List (String × Option Val) := []

/-- The sanitized filter: entries with an absent value or an unrecognized key
are dropped. -/
def sanitizedFilter (filter : List (String × Option Val)) :
    List (String × Val) :=
  filter.filterMap (fun kv =>
    match kv.2 with
    | some v =>
      if validCheckpointMetadataKeys.contains kv.1 then some (kv.1, v)
      else none
    | none => none)

/-- Decoding of one row yielded by `list` (identical to `getTuple`'s decode,
except that the yielded config and parent config use the row's namespace). -/
def decodeListRow (s : Serde) (gen : Option Nat → Nat) (db : DB)
    (row : CkptRow) : CheckpointTuple :=
  mkTuple s gen db
    ⟨some { thread_id := some row.thread_id,
            checkpoint_ns := some row.checkpoint_ns,
            checkpoint_id := some row.checkpoint_id }⟩
    row.checkpoint_ns row

/-- The WHERE predicates `list` builds: thread predicate only for a truthy
thread id; namespace predicate whenever a namespace is present; exclusive
upper bound from `before`; one predicate per sanitized filter key. -/
def listWhere (config : RunnableConfig) (options : CheckpointListOptions) :
    List WherePred :=
  (if truthy (config.configurable.bind (·.thread_id))
    then [WherePred.threadEq] else []) ++
  (if (config.configurable.bind (·.checkpoint_ns)).isSome
    then [WherePred.nsEq] else []) ++
  (if ((options.before.bind (·.configurable)).bind (·.checkpoint_id)).isSome
    then [WherePred.idLt] else []) ++
  (sanitizedFilter options.filter).map (fun kv => WherePred.metaEq kv.1)

/-- The bound argument list `list` builds: every present value is kept,
truthy or not (only absent values are dropped). -/
def listArgs (config : RunnableConfig) (options : CheckpointListOptions) :
    List String :=
  (config.configurable.bind (·.thread_id)).toList ++
  (config.configurable.bind (·.checkpoint_ns)).toList ++
  ((options.before.bind (·.configurable)).bind (·.checkpoint_id)).toList ++
  (sanitizedFilter options.filter).map (fun kv => jsonStringify kv.2)

/-- The rows matching `list`'s WHERE clause, with the arguments bound to the
placeholders positionally. -/
def listMatched (jx : String → String → String) (db : DB)
    (config : RunnableConfig) (options : CheckpointListOptions) :
    List CkptRow :=
  db.checkpoints.filter (fun r =>
    ((listWhere config options).zip (listArgs config options)).all
      (fun pa => predHolds jx pa.1 pa.2 r))

/-- The LIMIT clause: applied only for a truthy (nonzero) limit. -/
def listLimited : Option Nat → List CkptRow → List CkptRow
  | some n, l => if n != 0 then l.take n else l
  | none, l => l

/-- `list`: yield the matching rows in descending checkpoint_id order, capped
by `limit`, each decoded like `getTuple` does.  A surplus bound argument —
which arises exactly when `thread_id` is present but empty, since the empty
string is dropped from the WHERE clause but kept in the argument list —
cannot be bound to any placeholder and surfaces as a driver error. -/
def list (s : Serde) (gen : Option Nat → Nat) (jx : String → String → String)
    (db : DB) (config : RunnableConfig) (options : CheckpointListOptions) :
    Except String (List CheckpointTuple) :=
  if (listWhere config options).length != (listArgs config options).length then
    .error "too many parameter values were provided"
  else
    .ok ((listLimited options.limit
        (sortRowsDesc (listMatched jx db config options))).map
      (decodeListRow s gen db))

/-- The checkpoint id recorded in a tuple's config. -/
def tupleId (t : CheckpointTuple) : String :=
  ((t.config.configurable.getD {}).checkpoint_id).getD ""

/-! ### Support lemmas -/

theorem truthy_none : truthy none = false := rfl

theorem truthy_some (s : String) : truthy (some s) = (s != "") := rfl

theorem ckptKeyEq_refl (r : CkptRow) : ckptKeyEq r r = true := by
  simp [ckptKeyEq]

theorem beqComm {α : Type} [BEq α] [LawfulBEq α] (a b : α) :
    (a == b) = (b == a) := by
  by_cases h : a = b
  · subst h; rfl
  · rw [beq_eq_false_iff_ne.mpr h, beq_eq_false_iff_ne.mpr (fun e => h e.symm)]

theorem ckptKeyEq_symm (a b : CkptRow) : ckptKeyEq a b = ckptKeyEq b a := by
  simp only [ckptKeyEq]
  rw [beqComm a.thread_id b.thread_id, beqComm a.checkpoint_ns b.checkpoint_ns,
    beqComm a.checkpoint_id b.checkpoint_id]

theorem writeKeyEq_symm (a b : WriteRow) : writeKeyEq a b = writeKeyEq b a := by
  simp only [writeKeyEq]
  rw [beqComm a.thread_id b.thread_id, beqComm a.checkpoint_ns b.checkpoint_ns,
    beqComm a.checkpoint_id b.checkpoint_id, beqComm a.task_id b.task_id,
    beqComm a.idx b.idx]

/-- After an upsert, the rows with the new row's primary key are exactly the
new row. -/
theorem insertCheckpoint_filter (db : DB) (row : CkptRow) (p : CkptRow → Bool)
    (hp : ∀ r, p r = ckptKeyEq r row) :
    (db.insertCheckpoint row).checkpoints.filter p = [row] := by
  have hp' : p = fun r => ckptKeyEq r row := funext hp
  subst hp'
  simp [DB.insertCheckpoint, List.filter_append, List.filter_filter,
    ckptKeyEq_refl]

theorem sortRowsDesc_perm (l : List CkptRow) : (sortRowsDesc l).Perm l :=
  List.perm_insertionSort ckptRowGe l

theorem sortRowsDesc_sorted (l : List CkptRow) :
    (sortRowsDesc l).Pairwise ckptRowGe :=
  List.sorted_insertionSort ckptRowGe l

theorem sortRowsDesc_nil_iff (l : List CkptRow) :
    sortRowsDesc l = [] ↔ l = [] := by
  constructor
  · intro h
    have := (sortRowsDesc_perm l).length_eq
    rw [h] at this
    exact List.length_eq_zero.mp this.symm
  · intro h; rw [h]; rfl

theorem sortWriteRows_perm (l : List WriteRow) : (sortWriteRows l).Perm l :=
  List.perm_insertionSort writeRowLe l

theorem sortWriteRows_sorted (l : List WriteRow) :
    (sortWriteRows l).Pairwise writeRowLe :=
  List.sorted_insertionSort writeRowLe l

theorem sortWriteRows_eq_self {l : List WriteRow}
    (h : l.Pairwise writeRowLe) : sortWriteRows l = l :=
  List.Sorted.insertionSort_eq h

theorem le_foldl_max (a : Nat) (l : List Nat) : a ≤ l.foldl Nat.max a := by
  induction l generalizing a with
  | nil => exact Nat.le_refl a
  | cons x xs ih =>
    exact Nat.le_trans (Nat.le_max_left a x) (ih (Nat.max a x))

theorem mem_le_foldl_max {v : Nat} {l : List Nat} (h : v ∈ l) (a : Nat) :
    v ≤ l.foldl Nat.max a := by
  induction l generalizing a with
  | nil => cases h
  | cons x xs ih =>
    rcases List.mem_cons.mp h with h | h
    · subst h
      exact Nat.le_trans (Nat.le_max_right a v) (le_foldl_max _ xs)
    · exact ih h _

theorem foldl_max_mem (a : Nat) (l : List Nat) :
    l.foldl Nat.max a ∈ l ∨ l.foldl Nat.max a = a := by
  induction l generalizing a with
  | nil => exact Or.inr rfl
  | cons x xs ih =>
    rcases ih (Nat.max a x) with h | h
    · exact Or.inl (List.mem_cons_of_mem x h)
    · rw [List.foldl_cons, h]
      rcases Nat.le_total x a with hxa | hax
      · right
        simp only [Nat.max_def]
        split <;> omega
      · left
        have hmx : a.max x = x := by
          simp only [Nat.max_def]
          split <;> omega
        rw [hmx]
        exact List.mem_cons_self x xs

theorem maxChannelVersion_mem {l : List Nat} (h : l ≠ []) :
    maxChannelVersion l ∈ l := by
  unfold maxChannelVersion
  rcases foldl_max_mem 0 l with hm | hm
  · exact hm
  · cases l with
    | nil => exact absurd rfl h
    | cons x xs =>
      have hx : x ≤ (x :: xs).foldl Nat.max 0 :=
        mem_le_foldl_max (List.mem_cons_self x xs) 0
      rw [hm] at hx
      have hx0 : x = 0 := Nat.le_antisymm hx (Nat.zero_le x)
      rw [hm]
      exact List.mem_cons.mpr (Or.inl hx0.symm)

theorem maxChannelVersion_le {l : List Nat} {v : Nat} (h : v ∈ l) :
    v ≤ maxChannelVersion l :=
  mem_le_foldl_max h 0

theorem getKey_setKey {α : Type} (m : List (String × α)) (k : String)
    (v : α) : getKey (setKey m k v) k = some v := by
  induction m with
  | nil => simp [setKey, getKey]
  | cons kv rest ih =>
    by_cases h : kv.1 == k
    · simp [setKey, h, getKey]
    · simp only [setKey, h]
      simp only [getKey, List.find?] at ih ⊢
      simp [h, ih]

theorem foldl_insertWrite_checkpoints (rows : List WriteRow) (db : DB) :
    (rows.foldl DB.insertWrite db).checkpoints = db.checkpoints := by
  induction rows generalizing db with
  | nil => rfl
  | cons r rest ih => simp [List.foldl_cons, ih, DB.insertWrite]

/-- Folding conflict-free upserts into the `writes` table appends the new
rows in order. -/
theorem foldl_insertWrite_no_conflict (rows : List WriteRow) (db : DB)
    (hold : ∀ r ∈ rows, ∀ o ∈ db.writes, writeKeyEq o r = false)
    (hnew : rows.Pairwise (fun a b => writeKeyEq a b = false)) :
    (rows.foldl DB.insertWrite db).writes = db.writes ++ rows := by
  induction rows generalizing db with
  | nil => simp
  | cons r rest ih =>
    rw [List.foldl_cons]
    have h1 : (db.insertWrite r).writes = db.writes ++ [r] := by
      simp only [DB.insertWrite]
      have : db.writes.filter (fun o => !(writeKeyEq o r)) = db.writes := by
        apply List.filter_eq_self.mpr
        intro o ho
        simp [hold r (List.mem_cons_self r rest) o ho]
      rw [this]
    have hpair := List.pairwise_cons.mp hnew
    have := ih (db.insertWrite r) ?_ hpair.2
    · rw [this, h1, List.append_assoc]; rfl
    · intro x hx o ho
      rw [h1] at ho
      rcases List.mem_append.mp ho with ho | ho
      · exact hold x (List.mem_cons_of_mem r hx) o ho
      · rw [List.mem_singleton.mp ho]
        exact hpair.1 x hx

theorem listLimited_sublist (lim : Option Nat) (l : List CkptRow) :
    (listLimited lim l).Sublist l := by
  cases lim with
  | none => exact List.Sublist.refl l
  | some n =>
    simp only [listLimited]
    by_cases h : n != 0
    · rw [if_pos h]
      exact List.take_sublist n l
    · rw [if_neg h]

theorem tupleId_decodeListRow (s : Serde) (gen : Option Nat → Nat) (db : DB)
    (row : CkptRow) : tupleId (decodeListRow s gen db row) =
      row.checkpoint_id := rfl

/-- Order of pending writes as the spec states it: by task id, then by
sequence index. -/
def taskIdxLe (a b : WriteRow) : Prop :=
  strLt a.task_id b.task_id = true ∨ (a.task_id = b.task_id ∧ a.idx ≤ b.idx)

theorem writeRowLe_taskIdx {a b : WriteRow}
    (h1 : a.thread_id = b.thread_id) (h2 : a.checkpoint_ns = b.checkpoint_ns)
    (h3 : a.checkpoint_id = b.checkpoint_id) (h : writeRowLe a b) :
    taskIdxLe a b := by
  unfold writeRowLe lexLeB writeKeyOf at h
  rcases h with h | ⟨_, h⟩
  · rw [h1] at h
    simp [strLt_irrefl] at h
  · rcases h with h | ⟨_, h⟩
    · rw [h2] at h
      simp [strLt_irrefl] at h
    · rcases h with h | ⟨_, h⟩
      · rw [h3] at h
        simp [strLt_irrefl] at h
      · exact h

theorem ownerFilter_fields {db : DB} {row : CkptRow} {w : WriteRow}
    (h : w ∈ db.writes.filter (fun pw =>
      pw.thread_id == row.thread_id && pw.checkpoint_ns == row.checkpoint_ns &&
        pw.checkpoint_id == row.checkpoint_id)) :
    w.thread_id = row.thread_id ∧ w.checkpoint_ns = row.checkpoint_ns ∧
      w.checkpoint_id = row.checkpoint_id := by
  have h2 := (List.mem_filter.mp h).2
  simp only [Bool.and_eq_true, beq_iff_eq] at h2
  exact ⟨h2.1.1, h2.1.2, h2.2⟩

/-- The `writes` row `putWrites` stores for one indexed write. -/
def putWriteRow (s : Serde) (conf : Configurable) (taskId : String)
    (iw : Nat × (String × Val)) : WriteRow :=
  { thread_id := conf.thread_id.getD "",
    checkpoint_ns := conf.checkpoint_ns.getD "",
    checkpoint_id := conf.checkpoint_id.getD "",
    task_id := taskId,
    idx := iw.1,
    channel := iw.2.1,
    type := (s.dumpsVal iw.2.2).1,
    value := (s.dumpsVal iw.2.2).2 }

/-! ### Concrete fixtures used by witnesses and counterexamples -/

/-- A concrete serializer whose decoders invert its encoders on the value
shapes the fixtures use. -/
def testSerde : Serde := {
  dumpsCkpt := fun c => ("json", c.id)
  loadsCkpt := fun _ b =>
    { v := 4, id := b, ts := "", channel_values := [], channel_versions := [],
      versions_seen := [] }
  dumpsMeta := fun m => ("json", m.source)
  loadsMeta := fun _ b => { source := b, step := 0, parents := [] }
  dumpsVal := fun v =>
    match v with
    | .str s => ("json", s)
    | .num n => ("json", toString n)
  loadsVal := fun _ b => .str b }

/-- A concrete version generator. -/
def gen1 : Option Nat → Nat := fun _ => 1

/-- A concrete metadata json extractor (never consulted by the fixtures). -/
def jx0 : String → String → String := fun _ _ => ""

/-- The empty store. -/
def db0 : DB := ⟨[], []⟩

/-- A checkpoint row fixture. -/
def rowOf (t ns id : String) (parent : Option String) (blob : String) :
    CkptRow :=
  { thread_id := t, checkpoint_ns := ns, checkpoint_id := id,
    parent_checkpoint_id := parent, type := "json", checkpoint := blob,
    metadata := "m" }

/-- Three checkpoints in one partition, with time-sortable ids. -/
def db3 : DB :=
  ⟨[rowOf "t" "" "2024-01-01T00:00:00" none "a",
    rowOf "t" "" "2024-01-02T00:00:00" none "b",
    rowOf "t" "" "2024-01-03T00:00:00" none "c"], []⟩

/-- A serializer decoding every checkpoint blob to a legacy (v = 3) checkpoint
with one populated channel. -/
def serde3 : Serde := { testSerde with
  loadsCkpt := fun _ b =>
    { v := 3, id := b, ts := "",
      channel_values := [("a", .val (.str "x"))],
      channel_versions := [("a", 5)], versions_seen := [] } }

/-- One legacy checkpoint whose parent has no write rows at all. -/
def dbLegacy : DB := ⟨[rowOf "t" "" "c1" (some "p") "c1"], []⟩

/-- One legacy checkpoint in namespace `""`; the only `TASKS` write row under
the parent id lives in namespace `"other"`. -/
def dbNs : DB :=
  ⟨[rowOf "t" "" "c1" (some "p") "c1"],
   [{ thread_id := "t", checkpoint_ns := "other", checkpoint_id := "p",
      task_id := "tk", idx := 0, channel := TASKS, type := "json",
      value := "s1" }]⟩

/-- Config addressing the legacy checkpoint fixture. -/
def cfgLegacy : RunnableConfig :=
  ⟨some { thread_id := some "t", checkpoint_id := some "c1" }⟩

/-! ### Claim theorems -/

/-- The row a successful `put` stores. -/
def putRow (s : Serde) (conf : Configurable) (c : Checkpoint)
    (m : CheckpointMetadata) : CkptRow :=
  { thread_id := conf.thread_id.getD "",
    checkpoint_ns := conf.checkpoint_ns.getD "",
    checkpoint_id := c.id,
    parent_checkpoint_id := conf.checkpoint_id,
    type := (s.dumpsCkpt (copyCheckpoint c)).1,
    checkpoint := (s.dumpsCkpt (copyCheckpoint c)).2,
    metadata := (s.dumpsMeta m).2 }

theorem put_ok (s : Serde) (db : DB) (conf : Configurable) (c : Checkpoint)
    (m : CheckpointMetadata) (ht : truthy conf.thread_id = true)
    (htag : (s.dumpsCkpt c).1 = (s.dumpsMeta m).1) :
    put s db ⟨some conf⟩ c m =
      .ok (⟨some { thread_id := conf.thread_id,
                   checkpoint_ns := some (conf.checkpoint_ns.getD ""),
                   checkpoint_id := some c.id }⟩,
        db.insertCheckpoint (putRow s conf c m)) := by
  have hbne : ((s.dumpsCkpt (copyCheckpoint c)).1 != (s.dumpsMeta m).1)
      = false := by
    simp [copyCheckpoint, htag]
  simp only [put, ht, Bool.not_true, hbne, Bool.false_eq_true, if_false,
    putRow]

/-- C10: the checkpoint row written by `put` takes its
`parent_checkpoint_id` from the incoming config's `configurable.checkpoint_id`
(absent ↦ NULL); the stored row's own id is the checkpoint's id, which is
never used as the parent. -/
theorem put_parent_from_config (s : Serde) (db : DB) (conf : Configurable)
    (c : Checkpoint) (m : CheckpointMetadata)
    (ht : truthy conf.thread_id = true)
    (htag : (s.dumpsCkpt c).1 = (s.dumpsMeta m).1) :
    ∃ cfg db' row,
      put s db ⟨some conf⟩ c m = .ok (cfg, db') ∧
      db'.checkpoints.getLast? = some row ∧
      row.parent_checkpoint_id = conf.checkpoint_id ∧
      row.checkpoint_id = c.id := by
  refine ⟨_, _, putRow s conf c m, put_ok s db conf c m ht htag, ?_, rfl, rfl⟩
  simp only [DB.insertCheckpoint]
  exact List.getLast?_concat _

/-- C10 witness. -/
theorem put_parent_from_config_witness :
    ∃ cfg db' row,
      put testSerde db0
          ⟨some { thread_id := some "t", checkpoint_id := some "parent" }⟩
          { v := 4, id := "ck1", ts := "", channel_values := [],
            channel_versions := [], versions_seen := [] }
          { source := "input", step := 0, parents := [] } = .ok (cfg, db') ∧
      db'.checkpoints.getLast? = some row ∧
      row.parent_checkpoint_id = some "parent" ∧
      row.checkpoint_id = "ck1" :=
  put_parent_from_config testSerde db0
    { thread_id := some "t", checkpoint_id := some "parent" }
    { v := 4, id := "ck1", ts := "", channel_values := [],
      channel_versions := [], versions_seen := [] }
    { source := "input", step := 0, parents := [] } (by decide) rfl

/-- C8: two `put` calls with the same checkpoint id under the same partition
key leave exactly one `checkpoints` row for that primary key, carrying the
second call's serialized checkpoint and metadata. -/
theorem put_twice_second_wins (s : Serde) (db : DB) (conf : Configurable)
    (ca : Checkpoint) (ma : CheckpointMetadata) (cb : Checkpoint)
    (mb : CheckpointMetadata) (ht : truthy conf.thread_id = true)
    (htag1 : (s.dumpsCkpt ca).1 = (s.dumpsMeta ma).1)
    (htag2 : (s.dumpsCkpt cb).1 = (s.dumpsMeta mb).1)
    (hid : ca.id = cb.id) :
    ∃ cfg1 db1 cfg2 db2,
      put s db ⟨some conf⟩ ca ma = .ok (cfg1, db1) ∧
      put s db1 ⟨some conf⟩ cb mb = .ok (cfg2, db2) ∧
      db2.checkpoints.filter (fun r =>
          r.thread_id == conf.thread_id.getD "" &&
          r.checkpoint_ns == conf.checkpoint_ns.getD "" &&
          r.checkpoint_id == cb.id) =
        [{ thread_id := conf.thread_id.getD "",
           checkpoint_ns := conf.checkpoint_ns.getD "",
           checkpoint_id := cb.id,
           parent_checkpoint_id := conf.checkpoint_id,
           type := (s.dumpsCkpt cb).1,
           checkpoint := (s.dumpsCkpt cb).2,
           metadata := (s.dumpsMeta mb).2 }] := by
  refine ⟨_, _, _, _, put_ok s db conf ca ma ht htag1,
    put_ok s (db.insertCheckpoint (putRow s conf ca ma)) conf cb mb ht htag2,
    ?_⟩
  have hmain : ((db.insertCheckpoint (putRow s conf ca ma)).insertCheckpoint
      (putRow s conf cb mb)).checkpoints.filter (fun r =>
        r.thread_id == conf.thread_id.getD "" &&
        r.checkpoint_ns == conf.checkpoint_ns.getD "" &&
        r.checkpoint_id == cb.id) = [putRow s conf cb mb] := by
    apply insertCheckpoint_filter
    intro r
    simp [ckptKeyEq, putRow, copyCheckpoint]
  rw [hmain]
  simp [putRow, copyCheckpoint]

/-- C8 witness. -/
theorem put_twice_second_wins_witness :
    ∃ cfg1 db1 cfg2 db2,
      put testSerde db0 ⟨some { thread_id := some "t" }⟩
          { v := 4, id := "ck1", ts := "", channel_values := [],
            channel_versions := [], versions_seen := [] }
          { source := "input", step := 0, parents := [] } = .ok (cfg1, db1) ∧
      put testSerde db1 ⟨some { thread_id := some "t" }⟩
          { v := 4, id := "ck1", ts := "9", channel_values := [],
            channel_versions := [], versions_seen := [] }
          { source := "loop", step := 0, parents := [] } = .ok (cfg2, db2) ∧
      db2.checkpoints.filter (fun r =>
          r.thread_id == (some "t" : Option String).getD "" &&
          r.checkpoint_ns == (none : Option String).getD "" &&
          r.checkpoint_id == "ck1") =
        [{ thread_id := (some "t" : Option String).getD "",
           checkpoint_ns := (none : Option String).getD "",
           checkpoint_id := "ck1",
           parent_checkpoint_id := none,
           type := "json",
           checkpoint := "ck1",
           metadata := "loop" }] :=
  put_twice_second_wins testSerde db0 { thread_id := some "t" }
    { v := 4, id := "ck1", ts := "", channel_values := [],
      channel_versions := [], versions_seen := [] }
    { source := "input", step := 0, parents := [] }
    { v := 4, id := "ck1", ts := "9", channel_values := [],
      channel_versions := [], versions_seen := [] }
    { source := "loop", step := 0, parents := [] }
    (by decide) rfl rfl rfl

/-- C4 (refuting the claim; the claim matches the code's own dead guard): on a
legacy checkpoint whose parent has no pending-send write rows at all, reading
it still mutates the returned checkpoint — the migration's aggregate query
yields one row even for an empty match set, so the empty guard never fires,
and `TASKS` is assigned an empty array plus a channel version. -/
theorem migration_mutates_without_sends :
    dbLegacy.writes = [] ∧
    ((getTuple serde3 gen1 dbLegacy cfgLegacy).toOption.join).map
        (fun t => (getKey t.checkpoint.channel_values TASKS,
                   getKey t.checkpoint.channel_versions TASKS)) =
      some (some (ChanVal.arr []), some 5) := by
  exact ⟨rfl, by decide⟩

/-- C3 (refuting the claim; the engine's own inline `pending_sends` subquery,
which does constrain the namespace, is dead code): the migration consumes a
`TASKS` write row recorded under the parent checkpoint id in a *different*
namespace — its query never constrains `checkpoint_ns`.  The store `dbNs`
holds no write row in the read partition's namespace `""`, yet the migrated
checkpoint's `TASKS` channel receives the other namespace's send. -/
theorem migration_crosses_namespace :
    dbNs.writes.all (fun w => w.checkpoint_ns != "") = true ∧
    ((getTuple serde3 gen1 dbNs cfgLegacy).toOption.join).map
        (fun t => getKey t.checkpoint.channel_values TASKS) =
      some (some (ChanVal.arr [Val.str "s1"])) := by
  exact ⟨rfl, by decide⟩

/-- C5: when the legacy migration assigns the decoded pending sends, it sets
the `TASKS` channel version to the maximum over all existing channel versions
when any exist, and otherwise to a version freshly minted by the external
generator from no predecessor. -/
theorem migration_version_choice (s : Serde) (gen : Option Nat → Nat)
    (db : DB) (ckpt : Checkpoint) (threadId parentId : String) :
    (ckpt.channel_versions ≠ [] →
      ∃ mv, getKey (migratePendingSends s gen db ckpt threadId
          parentId).channel_versions TASKS = some mv ∧
        mv ∈ ckpt.channel_versions.map (·.2) ∧
        ∀ v ∈ ckpt.channel_versions.map (·.2), v ≤ mv) ∧
    (ckpt.channel_versions = [] →
      getKey (migratePendingSends s gen db ckpt threadId
          parentId).channel_versions TASKS = some (gen none)) := by
  constructor
  · intro hne
    have hpos : ckpt.channel_versions.length > 0 := List.length_pos.mpr hne
    refine ⟨maxChannelVersion (ckpt.channel_versions.map (·.2)), ?_, ?_, ?_⟩
    · simp only [migratePendingSends, List.isEmpty_cons, hpos, if_true,
        if_false, Bool.false_eq_true, getKey_setKey]
    · exact maxChannelVersion_mem (by simpa using hne)
    · intro v hv
      exact maxChannelVersion_le hv
  · intro he
    simp [migratePendingSends, he, getKey_setKey]

/-- C5 witness. -/
theorem migration_version_choice_witness :
    (∃ mv, getKey (migratePendingSends serde3 gen1 db0
        { v := 3, id := "c1", ts := "", channel_values := [],
          channel_versions := [("a", 5), ("b", 9)], versions_seen := [] }
        "t" "p").channel_versions TASKS = some mv ∧
      mv ∈ ([("a", 5), ("b", 9)] : List (String × Nat)).map (·.2) ∧
      ∀ v ∈ ([("a", 5), ("b", 9)] : List (String × Nat)).map (·.2), v ≤ mv) ∧
    getKey (migratePendingSends serde3 gen1 db0
        { v := 3, id := "c1", ts := "", channel_values := [],
          channel_versions := [], versions_seen := [] }
        "t" "p").channel_versions TASKS = some (gen1 none) :=
  ⟨(migration_version_choice serde3 gen1 db0
      { v := 3, id := "c1", ts := "", channel_values := [],
        channel_versions := [("a", 5), ("b", 9)], versions_seen := [] }
      "t" "p").1 (by decide),
   (migration_version_choice serde3 gen1 db0
      { v := 3, id := "c1", ts := "", channel_values := [],
        channel_versions := [], versions_seen := [] }
      "t" "p").2 rfl⟩

/-- C7: without a truthy checkpoint id, `getTuple` returns the checkpoint
whose id is lexically greatest in the partition; and whenever no row matches
the partition key plus optional checkpoint id, it returns an absent result
(`.ok none`), not an error. -/
theorem getTuple_latest_and_absent (s : Serde) (gen : Option Nat → Nat)
    (db : DB) (conf : Configurable) (tid : String)
    (hth : conf.thread_id = some tid) :
    (truthy conf.checkpoint_id = false →
      (db.checkpoints.filter (fun r => r.thread_id == tid &&
          r.checkpoint_ns == conf.checkpoint_ns.getD "") = [] →
        getTuple s gen db ⟨some conf⟩ = .ok none) ∧
      (db.checkpoints.filter (fun r => r.thread_id == tid &&
          r.checkpoint_ns == conf.checkpoint_ns.getD "") ≠ [] →
        ∃ t maxRow,
          getTuple s gen db ⟨some conf⟩ = .ok (some t) ∧
          maxRow ∈ db.checkpoints.filter (fun r => r.thread_id == tid &&
            r.checkpoint_ns == conf.checkpoint_ns.getD "") ∧
          tupleId t = maxRow.checkpoint_id ∧
          ∀ r ∈ db.checkpoints.filter (fun r => r.thread_id == tid &&
            r.checkpoint_ns == conf.checkpoint_ns.getD ""),
            strLe r.checkpoint_id maxRow.checkpoint_id = true)) ∧
    (truthy conf.checkpoint_id = true →
      db.checkpoints.filter (fun r => r.thread_id == tid &&
          r.checkpoint_ns == conf.checkpoint_ns.getD "" &&
          r.checkpoint_id == conf.checkpoint_id.getD "") = [] →
        getTuple s gen db ⟨some conf⟩ = .ok none) := by
  constructor
  · intro hcid
    constructor
    · intro hfe
      simp [getTuple, hth, hcid, hfe, sortRowsDesc]
    · intro hfne
      rcases hsort : sortRowsDesc (db.checkpoints.filter (fun r =>
          r.thread_id == tid && r.checkpoint_ns == conf.checkpoint_ns.getD ""))
        with _ | ⟨r0, rest⟩
      · exact absurd ((sortRowsDesc_nil_iff _).mp hsort) hfne
      · refine ⟨mkTuple s gen db
          ⟨some { thread_id := some r0.thread_id,
                  checkpoint_ns := some (conf.checkpoint_ns.getD ""),
                  checkpoint_id := some r0.checkpoint_id }⟩
          (conf.checkpoint_ns.getD "") r0, r0, ?_, ?_, rfl, ?_⟩
        · simp [getTuple, hth, hcid, hsort]
        · have hmem : r0 ∈ sortRowsDesc (db.checkpoints.filter (fun r =>
              r.thread_id == tid &&
                r.checkpoint_ns == conf.checkpoint_ns.getD "")) := by
            rw [hsort]; exact List.mem_cons_self r0 rest
          exact (sortRowsDesc_perm _).subset hmem
        · intro r hr
          have hr' : r ∈ r0 :: rest := by
            rw [← hsort]
            exact (sortRowsDesc_perm _).symm.subset hr
          have hpw := sortRowsDesc_sorted (db.checkpoints.filter (fun r =>
            r.thread_id == tid &&
              r.checkpoint_ns == conf.checkpoint_ns.getD ""))
          rw [hsort] at hpw
          rcases List.mem_cons.mp hr' with h | h
          · rw [h]; exact strLe_refl _
          · exact (List.pairwise_cons.mp hpw).1 r h
  · intro hcid hfe
    simp [getTuple, hth, hcid, hfe]

/-- C7 witness. -/
theorem getTuple_latest_and_absent_witness :
    (∃ t maxRow,
      getTuple testSerde gen1 db3
          ⟨some { thread_id := some "t", checkpoint_ns := some "" }⟩ =
        .ok (some t) ∧
      maxRow ∈ db3.checkpoints.filter (fun r => r.thread_id == "t" &&
        r.checkpoint_ns == (some "" : Option String).getD "") ∧
      tupleId t = maxRow.checkpoint_id ∧
      ∀ r ∈ db3.checkpoints.filter (fun r => r.thread_id == "t" &&
        r.checkpoint_ns == (some "" : Option String).getD ""),
        strLe r.checkpoint_id maxRow.checkpoint_id = true) ∧
    getTuple testSerde gen1 db3
        ⟨some { thread_id := some "absent" }⟩ = .ok none :=
  ⟨((getTuple_latest_and_absent testSerde gen1 db3
      { thread_id := some "t", checkpoint_ns := some "" } "t" rfl).1
        (by decide)).2 (by decide),
   ((getTuple_latest_and_absent testSerde gen1 db3
      { thread_id := some "absent" } "absent" rfl).1 (by decide)).1
        (by decide)⟩

/-- C1: a checkpoint and metadata stored with `put` are returned structurally
equal by a `getTuple` on the partition with the checkpoint id `put` returned,
provided the serializer round-trips them and the checkpoint's version is
current (so no legacy migration applies). -/
theorem put_getTuple_roundtrip (s : Serde) (gen : Option Nat → Nat) (db : DB)
    (conf : Configurable) (c : Checkpoint) (m : CheckpointMetadata)
    (ht : truthy conf.thread_id = true)
    (hid : c.id ≠ "")
    (htag : (s.dumpsCkpt c).1 = (s.dumpsMeta m).1)
    (hrtC : s.loadsCkpt (s.dumpsCkpt c).1 (s.dumpsCkpt c).2 = c)
    (hrtM : s.loadsMeta (s.dumpsCkpt c).1 (s.dumpsMeta m).2 = m)
    (hv : 4 ≤ c.v) :
    ∃ cfg db' t,
      put s db ⟨some conf⟩ c m = .ok (cfg, db') ∧
      getTuple s gen db' cfg = .ok (some t) ∧
      t.checkpoint = c ∧ t.metadata = m := by
  obtain ⟨tid, hth⟩ : ∃ tid, conf.thread_id = some tid := by
    cases h : conf.thread_id with
    | none => rw [h] at ht; simp [truthy] at ht
    | some t => exact ⟨t, rfl⟩
  have hput := put_ok s db conf c m ht htag
  refine ⟨_, _, mkTuple s gen (db.insertCheckpoint (putRow s conf c m))
      ⟨some { thread_id := conf.thread_id,
              checkpoint_ns := some (conf.checkpoint_ns.getD ""),
              checkpoint_id := some c.id }⟩
      (conf.checkpoint_ns.getD "") (putRow s conf c m),
    hput, ?_, ?_, ?_⟩
  · have hfilter : (db.insertCheckpoint (putRow s conf c m)).checkpoints.filter
        (fun r => r.thread_id == tid &&
          r.checkpoint_ns == conf.checkpoint_ns.getD "" &&
          r.checkpoint_id == c.id) = [putRow s conf c m] := by
      apply insertCheckpoint_filter
      intro r
      simp [ckptKeyEq, putRow, hth]
    simp [getTuple, hth, truthy, hid, hfilter]
  · show (mkTuple _ _ _ _ _ _).checkpoint = c
    simp only [mkTuple, putRow, copyCheckpoint]
    have hd : decide (c.v < 4) = false := decide_eq_false (by omega)
    simp [hrtC, hd]
  · show (mkTuple _ _ _ _ _ _).metadata = m
    simp only [mkTuple, putRow, copyCheckpoint]
    exact hrtM

/-- C1 witness. -/
theorem put_getTuple_roundtrip_witness :
    ∃ cfg db' t,
      put testSerde db0 ⟨some { thread_id := some "t" }⟩
          { v := 4, id := "ck1", ts := "", channel_values := [],
            channel_versions := [], versions_seen := [] }
          { source := "input", step := 0, parents := [] } = .ok (cfg, db') ∧
      getTuple testSerde gen1 db' cfg = .ok (some t) ∧
      t.checkpoint =
        { v := 4, id := "ck1", ts := "", channel_values := [],
          channel_versions := [], versions_seen := [] } ∧
      t.metadata = { source := "input", step := 0, parents := [] } :=
  put_getTuple_roundtrip testSerde gen1 db0 { thread_id := some "t" }
    { v := 4, id := "ck1", ts := "", channel_values := [],
      channel_versions := [], versions_seen := [] }
    { source := "input", step := 0, parents := [] }
    (by decide) (by decide) rfl rfl rfl (by decide)

/-- C6: within one partition, `list` yields checkpoints in strictly
descending checkpoint_id order; a `before` bound is an exclusive upper bound
on the yielded ids; and (without a limit) every partition row below the bound
is yielded. -/
theorem list_desc_and_before (s : Serde) (gen : Option Nat → Nat)
    (jx : String → String → String) (db : DB) (conf : Configurable)
    (opts : CheckpointListOptions) (tid nsv : String)
    (hnodup : db.checkpoints.Pairwise (fun a b => ckptKeyEq a b = false))
    (hth : conf.thread_id = some tid) (htid : tid ≠ "")
    (hns : conf.checkpoint_ns = some nsv)
    (hfilter : opts.filter = []) :
    ∃ ts, list s gen jx db ⟨some conf⟩ opts = .ok ts ∧
      ts.Pairwise (fun a b => strLt (tupleId b) (tupleId a) = true) ∧
      (∀ bid, (opts.before.bind (·.configurable)).bind (·.checkpoint_id) =
          some bid → ∀ t ∈ ts, strLt (tupleId t) bid = true) ∧
      (opts.limit = none →
        ∀ r ∈ db.checkpoints, r.thread_id = tid → r.checkpoint_ns = nsv →
          (∀ bid, (opts.before.bind (·.configurable)).bind (·.checkpoint_id)
              = some bid → strLt r.checkpoint_id bid = true) →
          ∃ t ∈ ts, tupleId t = r.checkpoint_id) := by
  have htr : truthy (some tid) = true := by
    simp only [truthy, Option.getD_some, bne_iff_ne, ne_eq]
    exact htid
  have hmem : ∀ r, r ∈ listMatched jx db ⟨some conf⟩ opts ↔
      r ∈ db.checkpoints ∧ r.thread_id = tid ∧ r.checkpoint_ns = nsv ∧
        (∀ bid, (opts.before.bind (·.configurable)).bind (·.checkpoint_id)
            = some bid → strLt r.checkpoint_id bid = true) := by
    intro r
    rcases hb : (opts.before.bind (·.configurable)).bind (·.checkpoint_id)
      with _ | bid
    · simp [listMatched, listWhere, listArgs, hth, htr, hns, hfilter, hb,
        sanitizedFilter, predHolds, List.mem_filter, and_assoc]
    · simp [listMatched, listWhere, listArgs, hth, htr, hns, hfilter, hb,
        sanitizedFilter, predHolds, List.mem_filter, and_assoc]
  refine ⟨(listLimited opts.limit
      (sortRowsDesc (listMatched jx db ⟨some conf⟩ opts))).map
      (decodeListRow s gen db), ?_, ?_, ?_, ?_⟩
  · have hlen : (listWhere ⟨some conf⟩ opts).length =
        (listArgs ⟨some conf⟩ opts).length := by
      rcases hb : (opts.before.bind (·.configurable)).bind (·.checkpoint_id)
        with _ | bid <;>
        simp [listWhere, listArgs, hth, htr, hns, hfilter, hb,
          sanitizedFilter]
    simp [list, hlen]
  · have hsub : (listMatched jx db ⟨some conf⟩ opts).Sublist
        db.checkpoints := List.filter_sublist _
    have h1 := List.Pairwise.sublist hsub hnodup
    have hpne : (listMatched jx db ⟨some conf⟩ opts).Pairwise
        (fun a b => a.checkpoint_id ≠ b.checkpoint_id) := by
      refine List.Pairwise.imp_of_mem ?_ h1
      intro a b ha hb' hab hid
      have ka := (hmem a).mp ha
      have kb := (hmem b).mp hb'
      have : ckptKeyEq a b = true := by
        simp [ckptKeyEq, ka.2.1, kb.2.1, ka.2.2.1, kb.2.2.1, hid]
      simp [this] at hab
    have hpne' : (sortRowsDesc (listMatched jx db ⟨some conf⟩
        opts)).Pairwise (fun a b => a.checkpoint_id ≠ b.checkpoint_id) :=
      ((sortRowsDesc_perm _).pairwise_iff
        (fun h e => h e.symm)).mpr hpne
    have hstrict := ((sortRowsDesc_sorted (listMatched jx db ⟨some conf⟩
        opts)).and hpne').imp
      (fun {a b} h => strLt_of_strLe_of_ne h.1 (fun e => h.2 e.symm))
    have hlim := List.Pairwise.sublist (listLimited_sublist opts.limit _) hstrict
    exact List.pairwise_map.mpr hlim
  · intro bid hb t ht
    obtain ⟨row, hrow, hteq⟩ := List.mem_map.mp ht
    have h1 : row ∈ sortRowsDesc (listMatched jx db ⟨some conf⟩ opts) :=
      (listLimited_sublist _ _).subset hrow
    have h2 : row ∈ listMatched jx db ⟨some conf⟩ opts :=
      (sortRowsDesc_perm _).subset h1
    have h3 := ((hmem row).mp h2).2.2.2 bid hb
    rw [← hteq]
    exact h3
  · intro hlim r hrdb hrt hrns hrb
    have hrm : r ∈ listMatched jx db ⟨some conf⟩ opts :=
      (hmem r).mpr ⟨hrdb, hrt, hrns, hrb⟩
    have h1 : r ∈ sortRowsDesc (listMatched jx db ⟨some conf⟩ opts) :=
      (sortRowsDesc_perm _).symm.subset hrm
    rw [hlim]
    exact ⟨decodeListRow s gen db r, List.mem_map_of_mem _ h1, rfl⟩

/-- The `before` config naming the third dated checkpoint. -/
def beforeCfg3 : RunnableConfig :=
  ⟨some { checkpoint_id := some "2024-01-03T00:00:00" }⟩

/-- C6 witness: the three dated checkpoints, with `before` set to the third
id. -/
theorem list_desc_and_before_witness :
    ∃ ts, list testSerde gen1 jx0 db3
        ⟨some { thread_id := some "t", checkpoint_ns := some "" }⟩
        { before := some beforeCfg3 } = .ok ts ∧
      ts.Pairwise (fun a b => strLt (tupleId b) (tupleId a) = true) ∧
      (∀ bid, ((some beforeCfg3 : Option RunnableConfig).bind
          (·.configurable)).bind (·.checkpoint_id) = some bid →
        ∀ t ∈ ts, strLt (tupleId t) bid = true) ∧
      ((none : Option Nat) = none →
        ∀ r ∈ db3.checkpoints, r.thread_id = "t" → r.checkpoint_ns = "" →
          (∀ bid, ((some beforeCfg3 : Option RunnableConfig).bind
              (·.configurable)).bind (·.checkpoint_id) = some bid →
            strLt r.checkpoint_id bid = true) →
          ∃ t ∈ ts, tupleId t = r.checkpoint_id) :=
  list_desc_and_before testSerde gen1 jx0 db3
    { thread_id := some "t", checkpoint_ns := some "" }
    { before := some beforeCfg3 }
    "t" "" (by decide) rfl (by decide) rfl rfl

/-- Two checkpoints under two different threads. -/
def dbTwoThreads : DB :=
  ⟨[rowOf "A" "" "1" none "a", rowOf "B" "" "2" none "b"], []⟩

/-- C9 counterexample: with a present-but-empty `thread_id` the claim fails.
No thread predicate is applied, but the empty string survives the argument
filter (it is neither `undefined` nor `null`), so the bound arguments
outnumber the placeholders and the query errors instead of yielding the
store's checkpoints. -/
theorem list_empty_thread_id_errors :
    db3.checkpoints ≠ [] ∧
    list testSerde gen1 jx0 db3 ⟨some { thread_id := some "" }⟩ {} =
      .error "too many parameter values were provided" :=
  ⟨by decide, rfl⟩

/-- C9 (amended): when the config carries no `thread_id` at all, no thread
predicate is applied and `list` succeeds, yielding the matching checkpoints of
every thread in the store; with a present-but-empty `thread_id` the thread
predicate is likewise omitted but the surplus bound argument makes the query
error instead. -/
theorem list_no_thread_predicate (s : Serde) (gen : Option Nat → Nat)
    (jx : String → String → String) (db : DB) (config : RunnableConfig)
    (opts : CheckpointListOptions)
    (hth : config.configurable.bind (·.thread_id) = none)
    (hlim : opts.limit = none) :
    ∃ ts, list s gen jx db config opts = .ok ts ∧
      ∀ r ∈ db.checkpoints,
        (∀ nsv, config.configurable.bind (·.checkpoint_ns) = some nsv →
          r.checkpoint_ns = nsv) →
        (∀ bid, (opts.before.bind (·.configurable)).bind (·.checkpoint_id)
            = some bid → strLt r.checkpoint_id bid = true) →
        (∀ kv ∈ sanitizedFilter opts.filter,
          jx r.metadata kv.1 = jsonStringify kv.2) →
        ∃ t ∈ ts, t.config.configurable = some
          { thread_id := some r.thread_id,
            checkpoint_ns := some r.checkpoint_ns,
            checkpoint_id := some r.checkpoint_id } := by
  have hlen : (listWhere config opts).length = (listArgs config opts).length := by
    rcases hns : config.configurable.bind (·.checkpoint_ns) with _ | nsv <;>
      rcases hb : (opts.before.bind (·.configurable)).bind (·.checkpoint_id)
        with _ | bid <;>
      simp [listWhere, listArgs, hth, hns, hb, truthy]
  have hmeta : ∀ r, (∀ kv ∈ sanitizedFilter opts.filter,
      jx r.metadata kv.1 = jsonStringify kv.2) →
      ∀ pa ∈ ((sanitizedFilter opts.filter).map
          (fun kv => WherePred.metaEq kv.1)).zip
        ((sanitizedFilter opts.filter).map (fun kv => jsonStringify kv.2)),
        predHolds jx pa.1 pa.2 r = true := by
    intro r hf pa hpa
    rw [List.zip_map'] at hpa
    rcases List.mem_map.mp hpa with ⟨kv, hkv, rfl⟩
    simp [predHolds, hf kv hkv]
  have hmem : ∀ r, r ∈ db.checkpoints →
      (∀ nsv, config.configurable.bind (·.checkpoint_ns) = some nsv →
        r.checkpoint_ns = nsv) →
      (∀ bid, (opts.before.bind (·.configurable)).bind (·.checkpoint_id)
          = some bid → strLt r.checkpoint_id bid = true) →
      (∀ kv ∈ sanitizedFilter opts.filter,
        jx r.metadata kv.1 = jsonStringify kv.2) →
      r ∈ listMatched jx db config opts := by
    intro r hrdb hns' hb' hf
    unfold listMatched
    apply List.mem_filter.mpr
    refine ⟨hrdb, List.all_eq_true.mpr ?_⟩
    intro pa hpa
    rcases hns : config.configurable.bind (·.checkpoint_ns) with _ | nsv <;>
      rcases hb : (opts.before.bind (·.configurable)).bind (·.checkpoint_id)
        with _ | bid <;>
      simp only [listWhere, listArgs, hth, hns, hb, truthy_none,
        Option.getD_none, Option.toList_some, Option.toList_none,
        Option.isSome_some, Option.isSome_none, Bool.false_eq_true,
        if_false, if_true, List.nil_append, List.append_nil,
        List.singleton_append, List.zip_cons_cons] at hpa
    · exact hmeta r hf pa hpa
    · rcases List.mem_cons.mp hpa with h | h
      · subst h
        exact hb' bid hb
      · exact hmeta r hf pa h
    · rcases List.mem_cons.mp hpa with h | h
      · subst h
        simp [predHolds, hns' nsv hns]
      · exact hmeta r hf pa h
    · rcases List.mem_cons.mp hpa with h | h
      · subst h
        simp [predHolds, hns' nsv hns]
      · rcases List.mem_cons.mp h with h' | h'
        · subst h'
          exact hb' bid hb
        · exact hmeta r hf pa h'
  refine ⟨(listLimited opts.limit
      (sortRowsDesc (listMatched jx db config opts))).map
      (decodeListRow s gen db), by simp [list, hlen], ?_⟩
  intro r hrdb hns' hb' hf
  have hrm := hmem r hrdb hns' hb' hf
  have h1 : r ∈ sortRowsDesc (listMatched jx db config opts) :=
    (sortRowsDesc_perm _).symm.subset hrm
  rw [hlim]
  exact ⟨decodeListRow s gen db r, List.mem_map_of_mem _ h1, rfl⟩

/-- C9 witness (for the amended theorem): with no thread id configured at
all, `list` returns checkpoints of both threads. -/
theorem list_no_thread_predicate_witness :
    ∃ ts, list testSerde gen1 jx0 dbTwoThreads ⟨none⟩ {} = .ok ts ∧
      ∀ r ∈ dbTwoThreads.checkpoints,
        (∀ nsv, ((⟨none⟩ : RunnableConfig)).configurable.bind
            (·.checkpoint_ns) = some nsv → r.checkpoint_ns = nsv) →
        (∀ bid, (((({} : CheckpointListOptions)).before.bind
            (·.configurable)).bind (·.checkpoint_id)) = some bid →
          strLt r.checkpoint_id bid = true) →
        (∀ kv ∈ sanitizedFilter ({} : CheckpointListOptions).filter,
          jx0 r.metadata kv.1 = jsonStringify kv.2) →
        ∃ t ∈ ts, t.config.configurable = some
          { thread_id := some r.thread_id,
            checkpoint_ns := some r.checkpoint_ns,
            checkpoint_id := some r.checkpoint_id } :=
  list_no_thread_predicate testSerde gen1 jx0 dbTwoThreads ⟨none⟩ {} rfl rfl

/-- C2: the pendingWrites `getTuple` returns are exactly the checkpoint's
write rows, ordered by task id then sequence index; in particular, after
`putWrites` of an ordered write list under one task (on a checkpoint with no
prior writes), `getTuple` returns those entries tagged with that task in
input order. -/
theorem pendingWrites_ordered (s : Serde) (gen : Option Nat → Nat) :
    (∀ (db : DB) (conf : Configurable) (tid cid : String) (row : CkptRow),
      conf.thread_id = some tid →
      conf.checkpoint_id = some cid → cid ≠ "" →
      db.checkpoints.filter (fun r => r.thread_id == tid &&
        r.checkpoint_ns == conf.checkpoint_ns.getD "" &&
        r.checkpoint_id == cid) = [row] →
      ∃ (t : CheckpointTuple) (rows : List WriteRow),
        getTuple s gen db ⟨some conf⟩ = .ok (some t) ∧
        rows.Perm (db.writes.filter (fun pw =>
          pw.thread_id == row.thread_id &&
          pw.checkpoint_ns == row.checkpoint_ns &&
          pw.checkpoint_id == row.checkpoint_id)) ∧
        rows.Pairwise taskIdxLe ∧
        t.pendingWrites = rows.map (decodeWrite s)) ∧
    (∀ (db : DB) (conf : Configurable) (tid cid : String) (row : CkptRow)
        (ws : List (String × Val)) (taskId : String),
      conf.thread_id = some tid → tid ≠ "" →
      conf.checkpoint_id = some cid → cid ≠ "" →
      (∀ o ∈ db.writes, ¬(o.thread_id = tid ∧
        o.checkpoint_ns = conf.checkpoint_ns.getD "" ∧
        o.checkpoint_id = cid)) →
      (∀ p ∈ ws, s.loadsVal (s.dumpsVal p.2).1 (s.dumpsVal p.2).2 = p.2) →
      row.thread_id = tid → row.checkpoint_ns = conf.checkpoint_ns.getD "" →
      row.checkpoint_id = cid →
      db.checkpoints.filter (fun r => r.thread_id == tid &&
        r.checkpoint_ns == conf.checkpoint_ns.getD "" &&
        r.checkpoint_id == cid) = [row] →
      ∃ db' t,
        putWrites s db ⟨some conf⟩ ws taskId = .ok db' ∧
        getTuple s gen db' ⟨some conf⟩ = .ok (some t) ∧
        t.pendingWrites = ws.map (fun p => (taskId, p.1, p.2))) := by
  constructor
  · intro db conf tid cid row hth hcid hcidne hfilter
    have hcidt : truthy (some cid) = true := by
      simp only [truthy_some, bne_iff_ne, ne_eq]
      exact hcidne
    have hres : getTuple s gen db ⟨some conf⟩ = .ok (some (mkTuple s gen db
        ⟨some conf⟩ (conf.checkpoint_ns.getD "") row)) := by
      simp [getTuple, hth, hcid, hcidt, hfilter]
    refine ⟨_, pendingWritesRows db row, hres, sortWriteRows_perm _, ?_, rfl⟩
    refine List.Pairwise.imp_of_mem ?_ (sortWriteRows_sorted _)
    intro a b ha hb h
    have ha' := ownerFilter_fields ((sortWriteRows_perm _).subset ha)
    have hb' := ownerFilter_fields ((sortWriteRows_perm _).subset hb)
    exact writeRowLe_taskIdx (ha'.1.trans hb'.1.symm)
      (ha'.2.1.trans hb'.2.1.symm) (ha'.2.2.trans hb'.2.2.symm) h
  · intro db conf tid cid row ws taskId hth htid hcid hcidne hnoold hrt
      hrowt hrowns hrowid hfilter
    have htt : truthy conf.thread_id = true := by
      simp only [hth, truthy_some, bne_iff_ne, ne_eq]
      exact htid
    have hcidt : truthy conf.checkpoint_id = true := by
      simp only [hcid, truthy_some, bne_iff_ne, ne_eq]
      exact hcidne
    have hcidt2 : truthy (some cid) = true := by
      simp only [truthy_some, bne_iff_ne, ne_eq]
      exact hcidne
    have hput : putWrites s db ⟨some conf⟩ ws taskId =
        .ok ((ws.enum.map (putWriteRow s conf taskId)).foldl
          DB.insertWrite db) := by
      simp only [putWrites, htt, hcidt, Bool.not_true, Bool.false_eq_true,
        if_false]
      rfl
    have hidx : (ws.enum).Pairwise (fun x y => x.1 < y.1) := by
      have h0 := List.pairwise_lt_range ws.length
      rw [← List.enum_map_fst ws] at h0
      exact List.pairwise_map.mp h0
    have hold : ∀ r ∈ ws.enum.map (putWriteRow s conf taskId),
        ∀ o ∈ db.writes, writeKeyEq o r = false := by
      intro r hr o ho
      obtain ⟨iw, _, rfl⟩ := List.mem_map.mp hr
      cases h : writeKeyEq o (putWriteRow s conf taskId iw)
      · rfl
      · exfalso
        simp only [writeKeyEq, putWriteRow, Bool.and_eq_true, beq_iff_eq,
          hth, hcid, Option.getD_some] at h
        exact hnoold o ho ⟨h.1.1.1.1, h.1.1.1.2, h.1.1.2⟩
    have hnew : (ws.enum.map (putWriteRow s conf taskId)).Pairwise
        (fun a b => writeKeyEq a b = false) := by
      refine List.pairwise_map.mpr (hidx.imp ?_)
      intro x y h
      have hne : (x.1 == y.1) = false := beq_eq_false_iff_ne.mpr (Nat.ne_of_lt h)
      simp [writeKeyEq, putWriteRow, hne]
    have hwrites : ((ws.enum.map (putWriteRow s conf taskId)).foldl
        DB.insertWrite db).writes =
        db.writes ++ ws.enum.map (putWriteRow s conf taskId) :=
      foldl_insertWrite_no_conflict _ db hold hnew
    have hchk : ((ws.enum.map (putWriteRow s conf taskId)).foldl
        DB.insertWrite db).checkpoints = db.checkpoints :=
      foldl_insertWrite_checkpoints _ db
    have hfilter' : ((ws.enum.map (putWriteRow s conf taskId)).foldl
        DB.insertWrite db).checkpoints.filter (fun r => r.thread_id == tid &&
        r.checkpoint_ns == conf.checkpoint_ns.getD "" &&
        r.checkpoint_id == cid) = [row] := by
      rw [hchk]
      exact hfilter
    have hres : getTuple s gen ((ws.enum.map (putWriteRow s conf
        taskId)).foldl DB.insertWrite db) ⟨some conf⟩ =
        .ok (some (mkTuple s gen ((ws.enum.map (putWriteRow s conf
          taskId)).foldl DB.insertWrite db) ⟨some conf⟩
          (conf.checkpoint_ns.getD "") row)) := by
      simp [getTuple, hth, hcid, hcidt2, hfilter']
    have hpwr : pendingWritesRows ((ws.enum.map (putWriteRow s conf
        taskId)).foldl DB.insertWrite db) row =
        ws.enum.map (putWriteRow s conf taskId) := by
      unfold pendingWritesRows
      rw [hwrites, List.filter_append]
      have hleft : db.writes.filter (fun pw =>
          pw.thread_id == row.thread_id &&
          pw.checkpoint_ns == row.checkpoint_ns &&
          pw.checkpoint_id == row.checkpoint_id) = [] := by
        apply List.filter_eq_nil_iff.mpr
        intro o ho hp
        simp only [Bool.and_eq_true, beq_iff_eq, hrowt, hrowns, hrowid] at hp
        exact hnoold o ho ⟨hp.1.1, hp.1.2, hp.2⟩
      have hright : (ws.enum.map (putWriteRow s conf taskId)).filter
          (fun pw => pw.thread_id == row.thread_id &&
            pw.checkpoint_ns == row.checkpoint_ns &&
            pw.checkpoint_id == row.checkpoint_id) =
          ws.enum.map (putWriteRow s conf taskId) := by
        apply List.filter_eq_self.mpr
        intro a ha
        obtain ⟨iw, _, rfl⟩ := List.mem_map.mp ha
        simp [putWriteRow, hrowt, hrowns, hrowid, hth, hcid]
      rw [hleft, hright, List.nil_append]
      apply sortWriteRows_eq_self
      refine List.pairwise_map.mpr (hidx.imp ?_)
      intro x y h
      exact Or.inr ⟨rfl, Or.inr ⟨rfl, Or.inr ⟨rfl, Or.inr ⟨rfl,
        Nat.le_of_lt h⟩⟩⟩⟩
    refine ⟨_, _, hput, hres, ?_⟩
    show (pendingWritesRows _ row).map (decodeWrite s) = _
    rw [hpwr, List.map_map]
    have hstep : (decodeWrite s ∘ putWriteRow s conf taskId) =
        (fun p : String × Val => (taskId, p.1,
          s.loadsVal (s.dumpsVal p.2).1 (s.dumpsVal p.2).2)) ∘ Prod.snd := by
      funext iw
      rfl
    rw [hstep, ← List.map_map, List.enum_map_snd]
    apply List.map_congr_left
    intro p hp
    rw [hrt p hp]

/-- C2 witness: two writes on two channels under task `"t1"`. -/
theorem pendingWrites_ordered_witness :
    ∃ db' t,
      putWrites testSerde
          ⟨[rowOf "t" "" "ck1" none "ck1"], []⟩
          ⟨some { thread_id := some "t", checkpoint_ns := some "",
                  checkpoint_id := some "ck1" }⟩
          [("chanA", .str "v1"), ("chanB", .str "v2")] "t1" = .ok db' ∧
      getTuple testSerde gen1 db'
          ⟨some { thread_id := some "t", checkpoint_ns := some "",
                  checkpoint_id := some "ck1" }⟩ = .ok (some t) ∧
      t.pendingWrites = [("t1", "chanA", Val.str "v1"),
        ("t1", "chanB", Val.str "v2")] :=
  (pendingWrites_ordered testSerde gen1).2
    ⟨[rowOf "t" "" "ck1" none "ck1"], []⟩
    { thread_id := some "t", checkpoint_ns := some "",
      checkpoint_id := some "ck1" }
    "t" "ck1" (rowOf "t" "" "ck1" none "ck1")
    [("chanA", .str "v1"), ("chanB", .str "v2")] "t1"
    rfl (by decide) rfl (by decide) (by decide) (by decide)
    rfl rfl rfl (by decide)

end LibsqlCkpt
